import Mathlib

/-!
# Verification of the TAPANIBOT voice-agent against its specification

Shallow embedding of the repository's data model and operations:

* `src/lib/audio_buffer.py`           — `AudioBuffer` (jitter/playback buffer)
* `src/lib/interruption_handler.py`   — `SpeechQueue`, `AudioPlaybackController`,
                                        `InterruptionHandler`
* `src/lib/enhanced_vad.py`           — `EnhancedVAD`
* `src/lib/streaming_orchestrator.py` — `StreamCoordinator`, `_streaming_pipeline`
* `src/lib/llm_client.py`             — `LLMClient._build_messages`
* `src/lib/conversation.py`           — `ConversationContext.add_turn`
* `src/server.py`                     — PSTN admission control (`active_calls`)

Python bytes are modelled as `List Nat`, wall-clock timestamps as integers in
milliseconds, and audio energies (which the code computes with float division)
as exact rationals.
-/

namespace VoiceAgent

/-! ## Python string helpers

`pyIsSpace` covers the ASCII whitespace characters recognised by Python's
`str.strip` / `str.rstrip` (the code only ever strips LLM token text, which is
ASCII-spaced). -/

def pyIsSpace (c : Char) : Bool :=
  c = ' ' || c = '\t' || c = '\n' || c = '\r' || c = Char.ofNat 11 || c = Char.ofNat 12

/-- Python `s.rstrip()`: drop trailing whitespace. -/
def pyRstrip (s : String) : String :=
  String.mk ((s.data.reverse.dropWhile pyIsSpace).reverse)

/-- Python `s.strip()`: drop leading and trailing whitespace. -/
def pyStrip (s : String) : String :=
  String.mk (((s.data.dropWhile pyIsSpace).reverse.dropWhile pyIsSpace).reverse)

/-- Python `"".join(l)`. -/
def pyJoin : List String → String
  | [] => ""
  | s :: ss => s ++ pyJoin ss

/-- Python `s.endswith(cs)` for a tuple `cs` of single characters. -/
def endsWithAny (s : String) (cs : List Char) : Bool :=
  match s.data.getLast? with
  | some c => cs.contains c
  | none => false

theorem pyJoin_append (a b : List String) : pyJoin (a ++ b) = pyJoin a ++ pyJoin b := by
  induction a with
  | nil => simp [pyJoin]
  | cons s ss ih => simp [pyJoin, ih, String.append_assoc]

/-! ## `AudioBuffer` (src/lib/audio_buffer.py)

State of an `AudioBuffer` instance.  Frames are byte strings (`List Nat`).
The playback loop, jitter wait and fadeout are I/O; the state mutations of
`add_audio`, `interrupt`, `reset` and `start_playback` are modelled.  The
stats fields `underruns`/`total_bytes_played` and the chunk-size fields do not
participate in any claim but are kept for fidelity. -/

structure AudioBuffer where
  /-- `max_buffer_size = int(sample_rate * max_buffer_ms / 1000)` (line 53). -/
  max_buffer_size : Nat
  buffer : List (List Nat)
  total_buffered_bytes : Nat
  is_playing : Bool
  interrupted : Bool
  total_bytes_played : Nat
  underruns : Nat
  overruns : Nat
  deriving DecidableEq, Repr

/-- `AudioBuffer.__init__` (lines 32-70): derived sizes and zeroed state. -/
def AudioBuffer.init (sample_rate max_buffer_ms : Nat) : AudioBuffer :=
  { max_buffer_size := sample_rate * max_buffer_ms / 1000
    buffer := []
    total_buffered_bytes := 0
    is_playing := false
    interrupted := false
    total_bytes_played := 0
    underruns := 0
    overruns := 0 }

/-- `AudioBuffer.add_audio` (lines 77-100): discard when interrupted, else
append the frame; on overflow drop the single oldest chunk and count one
overrun. -/
def AudioBuffer.add_audio (b : AudioBuffer) (audio_data : List Nat) : AudioBuffer :=
  if b.interrupted then b
  else
    let buf := b.buffer ++ [audio_data]
    let total := b.total_buffered_bytes + audio_data.length
    if b.max_buffer_size < total then
      match buf with
      | [] => { b with buffer := buf, total_buffered_bytes := total }
      | dropped :: rest =>
          { b with
            buffer := rest
            total_buffered_bytes := total - dropped.length
            overruns := b.overruns + 1 }
    else { b with buffer := buf, total_buffered_bytes := total }

/-- `AudioBuffer.interrupt` (lines 207-225): clear the buffer, mark
interrupted, stop playing. -/
def AudioBuffer.interrupt (b : AudioBuffer) : AudioBuffer :=
  { b with interrupted := true, is_playing := false, buffer := [], total_buffered_bytes := 0 }

/-- `AudioBuffer.reset` (lines 227-233). -/
def AudioBuffer.reset (b : AudioBuffer) : AudioBuffer :=
  { b with
    buffer := []
    total_buffered_bytes := 0
    interrupted := false
    is_playing := false
    total_bytes_played := 0 }

/-- State effect of `AudioBuffer.start_playback` (lines 109-115): flips
`is_playing` on and clears the `interrupted` flag (the jitter-fill wait and
the playback task are I/O). -/
def AudioBuffer.start_playback (b : AudioBuffer) : AudioBuffer :=
  { b with is_playing := true, interrupted := false }

/-- Sanity invariant: `total_buffered_bytes` equals the summed frame lengths. -/
def AudioBuffer.countsBytes (b : AudioBuffer) : Prop :=
  b.total_buffered_bytes = (b.buffer.map List.length).sum

theorem AudioBuffer.countsBytes_init (sr ms : Nat) :
    (AudioBuffer.init sr ms).countsBytes := by
  simp [AudioBuffer.init, AudioBuffer.countsBytes]

theorem AudioBuffer.countsBytes_add_audio (b : AudioBuffer) (f : List Nat)
    (h : b.countsBytes) : (b.add_audio f).countsBytes := by
  unfold AudioBuffer.add_audio AudioBuffer.countsBytes at *
  by_cases hint : b.interrupted
  · simpa [hint] using h
  · simp only [hint, if_false, Bool.false_eq_true]
    by_cases hover : b.max_buffer_size < b.total_buffered_bytes + f.length
    · cases hbuf : b.buffer ++ [f] with
      | nil => simp at hbuf
      | cons d rest =>
        simp only [hover, if_true, hbuf]
        have hsum : ((d :: rest).map List.length).sum
            = b.total_buffered_bytes + f.length := by
          rw [← hbuf]
          simp [h, List.map_append]
        simp only [List.map_cons, List.sum_cons] at hsum
        simp [← hsum, Nat.add_sub_cancel_left]
    · rw [if_neg hover]
      simp [h, List.map_append]

/-- Adding audio to an interrupted buffer is a no-op (lines 84-86). -/
theorem AudioBuffer.add_audio_interrupted (b : AudioBuffer) (f : List Nat)
    (h : b.interrupted = true) : b.add_audio f = b := by
  simp [AudioBuffer.add_audio, h]

theorem AudioBuffer.foldl_add_audio_interrupted (b : AudioBuffer)
    (frames : List (List Nat)) (h : b.interrupted = true) :
    frames.foldl AudioBuffer.add_audio b = b := by
  induction frames with
  | nil => rfl
  | cons f fs ih =>
      rw [List.foldl_cons, AudioBuffer.add_audio_interrupted b f h]
      exact ih

/-- Invariant used for the amended C3: all buffered frames share length `s`,
the byte count is accurate, and the buffer respects the bound. -/
def AudioBuffer.uniformInv (s : Nat) (b : AudioBuffer) : Prop :=
  b.countsBytes ∧ (∀ f ∈ b.buffer, f.length = s) ∧
    b.total_buffered_bytes ≤ b.max_buffer_size

theorem AudioBuffer.uniformInv_add_audio {s : Nat} {b : AudioBuffer}
    (hb : b.uniformInv s) (f : List Nat) (hf : f.length = s) :
    (b.add_audio f).uniformInv s := by
  obtain ⟨hcount, hlen, hbound⟩ := hb
  unfold AudioBuffer.add_audio
  by_cases hint : b.interrupted
  · simpa [hint] using ⟨hcount, hlen, hbound⟩
  · simp only [hint, if_false, Bool.false_eq_true]
    by_cases hover : b.max_buffer_size < b.total_buffered_bytes + f.length
    · cases hbuf : b.buffer with
      | nil =>
        have ht : b.total_buffered_bytes = 0 := by
          simpa [AudioBuffer.countsBytes, hbuf] using hcount
        simp only [hbuf, List.nil_append, hover, if_true]
        refine ⟨?_, ?_, ?_⟩
        · simp [AudioBuffer.countsBytes, ht]
        · intro g hg; simp at hg
        · simp [ht, hf]
      | cons x xs =>
        have hx : x.length = s := hlen x (by rw [hbuf]; exact List.mem_cons_self x xs)
        have hsum : b.total_buffered_bytes = s + (xs.map List.length).sum := by
          rw [AudioBuffer.countsBytes, hbuf] at hcount
          simpa [hx] using hcount
        simp only [hbuf, List.cons_append, hover, if_true]
        refine ⟨?_, ?_, ?_⟩
        · show b.total_buffered_bytes + f.length - x.length
            = ((xs ++ [f]).map List.length).sum
          rw [hx, hf, Nat.add_sub_cancel, hsum, List.map_append]
          simp [hf, Nat.add_comm]
        · intro g hg
          rcases List.mem_append.mp hg with hg | hg
          · exact hlen g (by rw [hbuf]; exact List.mem_cons_of_mem x hg)
          · simp at hg; rw [hg]; exact hf
        · show b.total_buffered_bytes + f.length - x.length ≤ b.max_buffer_size
          rw [hx, hf, Nat.add_sub_cancel]
          exact hbound
    · rw [if_neg hover]
      refine ⟨?_, ?_, ?_⟩
      · show b.total_buffered_bytes + f.length = ((b.buffer ++ [f]).map List.length).sum
        rw [hcount, List.map_append]; simp
      · intro g hg
        rcases List.mem_append.mp hg with hg | hg
        · exact hlen g hg
        · simp at hg; rw [hg]; exact hf
      · exact Nat.le_of_not_lt hover

theorem AudioBuffer.uniformInv_foldl {s : Nat} {b : AudioBuffer}
    (hb : b.uniformInv s) (frames : List (List Nat))
    (hf : ∀ f ∈ frames, f.length = s) :
    (frames.foldl AudioBuffer.add_audio b).uniformInv s := by
  induction frames generalizing b with
  | nil => exact hb
  | cons f fs ih =>
      rw [List.foldl_cons]
      exact ih (AudioBuffer.uniformInv_add_audio hb f (hf f (List.mem_cons_self f fs)))
        (fun g hg => hf g (List.mem_cons_of_mem f hg))

theorem AudioBuffer.uniformInv_init (sr ms s : Nat) :
    (AudioBuffer.init sr ms).uniformInv s := by
  refine ⟨AudioBuffer.countsBytes_init sr ms, ?_, ?_⟩
  · intro g hg; simp [AudioBuffer.init] at hg
  · simp [AudioBuffer.init]

/-- Concrete run refuting C3: `AudioBuffer.init 100 40` has
`max_buffer_size = 4`; frames of 1, 3 and then 2 bytes are added. -/
def c3Run : AudioBuffer :=
  (((AudioBuffer.init 100 40).add_audio (List.replicate 1 0)).add_audio
      (List.replicate 3 0)).add_audio (List.replicate 2 0)

/-- **C3 counterexample.**  The claim says the bound
`total_buffered_bytes ≤ max_buffer_size` holds after *every* `add_audio` call,
oldest frames being dropped "until the bound holds".  `add_audio` (lines
91-100) drops at most ONE oldest chunk per call, so with frames of unequal
sizes the bound is violated: with `max_buffer_size = 4`, adding frames of
1, 3 and then 2 bytes leaves 5 buffered bytes — dropping the single oldest
1-byte frame is not enough. -/
theorem claim_C3_counterexample :
    c3Run.max_buffer_size = 4 ∧ c3Run.total_buffered_bytes = 5 ∧
      c3Run.max_buffer_size < c3Run.total_buffered_bytes := by
  decide

/-- **C3 (amended).**  Whenever adding a frame makes the total exceed
`max_buffer_size`, exactly ONE oldest frame is dropped and `overruns` is
incremented exactly once (not: "until the bound holds"); otherwise the frame
is appended with `overruns` unchanged.  Consequently, when all frames have
one common length, the bound `total_buffered_bytes ≤ max_buffer_size` does
hold after every call. -/
theorem claim_C3 :
    (∀ (b : AudioBuffer) (f : List Nat), b.interrupted = false →
      (b.max_buffer_size < b.total_buffered_bytes + f.length →
        (b.add_audio f).overruns = b.overruns + 1 ∧
        (b.add_audio f).buffer = (b.buffer ++ [f]).tail) ∧
      (¬ b.max_buffer_size < b.total_buffered_bytes + f.length →
        (b.add_audio f).overruns = b.overruns ∧
        (b.add_audio f).buffer = b.buffer ++ [f])) ∧
    (∀ (sr ms s : Nat) (frames : List (List Nat)), (∀ f ∈ frames, f.length = s) →
      ∀ k : Nat,
        ((frames.take k).foldl AudioBuffer.add_audio
            (AudioBuffer.init sr ms)).total_buffered_bytes ≤
          ((frames.take k).foldl AudioBuffer.add_audio
            (AudioBuffer.init sr ms)).max_buffer_size) := by
  constructor
  · intro b f hint
    constructor
    · intro hover
      unfold AudioBuffer.add_audio
      simp only [hint, if_false, Bool.false_eq_true, hover, if_true]
      cases hbuf : b.buffer ++ [f] with
      | nil => simp at hbuf
      | cons d rest => simp
    · intro hover
      unfold AudioBuffer.add_audio
      simp only [hint, if_false, Bool.false_eq_true]
      rw [if_neg hover]
      exact ⟨rfl, rfl⟩
  · intro sr ms s frames hf k
    have h := AudioBuffer.uniformInv_foldl (AudioBuffer.uniformInv_init sr ms s)
      (frames.take k) (fun g hg => hf g (List.mem_of_mem_take hg))
    exact h.2.2

/-- **C3 witness**: concrete instantiation of both conjuncts of `claim_C3`. -/
theorem claim_C3_witness :
    (((AudioBuffer.init 100 40).add_audio (List.replicate 2 0)).overruns = 0 ∧
      ((AudioBuffer.init 100 40).add_audio (List.replicate 2 0)).buffer
        = [] ++ [List.replicate 2 0]) ∧
    (([List.replicate 2 0, List.replicate 2 0, List.replicate 2 0].take
        3).foldl AudioBuffer.add_audio
        (AudioBuffer.init 100 40)).total_buffered_bytes ≤
      (([List.replicate 2 0, List.replicate 2 0, List.replicate 2 0].take
        3).foldl AudioBuffer.add_audio
        (AudioBuffer.init 100 40)).max_buffer_size := by
  constructor
  · have h := (claim_C3.1 (AudioBuffer.init 100 40) (List.replicate 2 0)
      (by decide)).2 (by decide)
    simpa [AudioBuffer.init] using h
  · exact claim_C3.2 100 40 2 _ (by decide) 3

/-- **C10.**  After `interrupt()` the buffer is empty, every later `add_audio`
is a no-op (buffer stays empty, `overruns` unchanged), and `reset()` or
`start_playback()` clears the `interrupted` flag. -/
theorem claim_C10 :
    ∀ (b : AudioBuffer) (frames : List (List Nat)),
      b.interrupt.total_buffered_bytes = 0 ∧
      b.interrupt.buffer = [] ∧
      frames.foldl AudioBuffer.add_audio b.interrupt = b.interrupt ∧
      (frames.foldl AudioBuffer.add_audio b.interrupt).overruns = b.overruns ∧
      b.interrupt.reset.interrupted = false ∧
      b.interrupt.start_playback.interrupted = false := by
  intro b frames
  have hfold := AudioBuffer.foldl_add_audio_interrupted b.interrupt frames rfl
  exact ⟨rfl, rfl, hfold, by rw [hfold]; rfl, rfl, rfl⟩

/-! ## `SpeechQueue` (src/lib/interruption_handler.py, lines 29-94)

A queue element carries the monotonically assigned id (`speech_{n}` is
modelled by the number `n`), the text and the priority.  The enqueue
timestamp does not affect queue behaviour and is omitted.  Python's
`list.sort(key=..., reverse=True)` is a stable sort; `sortDescP` is the
same stable descending sort by priority, written as insertion sort. -/

structure SpeechItem where
  id : Nat
  text : String
  priority : Int
  deriving DecidableEq, Repr

/-- Insert into a descending-sorted list, placing the inserted (earlier)
element before later elements of equal priority — the stability discipline
of Python's `list.sort`. -/
def insertDescP (x : SpeechItem) : List SpeechItem → List SpeechItem
  | [] => [x]
  | y :: ys => if y.priority ≤ x.priority then x :: y :: ys else y :: insertDescP x ys

/-- Stable sort by priority, highest first: models
`self.queue.sort(key=lambda x: x["priority"], reverse=True)` (line 64). -/
def sortDescP : List SpeechItem → List SpeechItem
  | [] => []
  | x :: xs => insertDescP x (sortDescP xs)

structure SpeechQueue where
  queue : List SpeechItem
  next_speech_id : Nat
  current_speech_id : Option Nat
  deriving DecidableEq, Repr

def SpeechQueue.empty : SpeechQueue := ⟨[], 0, none⟩

/-- `SpeechQueue.add` (lines 42-70): assign `speech_{next_speech_id}`,
append, then re-sort the whole queue stably by descending priority.
Returns the assigned id alongside the new state. -/
def SpeechQueue.add (q : SpeechQueue) (text : String) (priority : Int) :
    Nat × SpeechQueue :=
  let item : SpeechItem := ⟨q.next_speech_id, text, priority⟩
  (q.next_speech_id,
    { q with
      queue := sortDescP (q.queue ++ [item])
      next_speech_id := q.next_speech_id + 1 })

/-- `SpeechQueue.get_next` (lines 72-78): pop the front element. -/
def SpeechQueue.get_next (q : SpeechQueue) : Option SpeechItem × SpeechQueue :=
  match q.queue with
  | [] => (none, q)
  | x :: xs => (some x, { q with queue := xs, current_speech_id := some x.id })

/-- The strict dequeue order: `a` must come out before `b`. -/
def spOrder (a b : SpeechItem) : Prop :=
  b.priority < a.priority ∨ (b.priority = a.priority ∧ a.id < b.id)

/-- Stability precondition: among equal priorities, ids ascend. -/
def spStable (a b : SpeechItem) : Prop :=
  a.priority = b.priority → a.id < b.id

theorem mem_insertDescP {z x : SpeechItem} {l : List SpeechItem} :
    z ∈ insertDescP x l ↔ z = x ∨ z ∈ l := by
  induction l with
  | nil => simp [insertDescP]
  | cons y ys ih =>
      unfold insertDescP
      by_cases h : y.priority ≤ x.priority
      · simp [h]
      · simp only [h, if_false, List.mem_cons, ih]
        tauto

theorem mem_sortDescP {z : SpeechItem} {l : List SpeechItem} :
    z ∈ sortDescP l ↔ z ∈ l := by
  induction l with
  | nil => simp [sortDescP]
  | cons x xs ih =>
      unfold sortDescP
      rw [mem_insertDescP]
      simp [ih]

theorem pairwise_insertDescP {x : SpeechItem} {l : List SpeechItem}
    (hl : l.Pairwise spOrder) (hx : ∀ y ∈ l, spStable x y) :
    (insertDescP x l).Pairwise spOrder := by
  induction l with
  | nil => simp [insertDescP]
  | cons y ys ih =>
      rw [List.pairwise_cons] at hl
      obtain ⟨hy, hys⟩ := hl
      unfold insertDescP
      by_cases h : y.priority ≤ x.priority
      · rw [if_pos h]
        rw [List.pairwise_cons]
        refine ⟨?_, List.pairwise_cons.mpr ⟨hy, hys⟩⟩
        intro z hz
        rcases List.mem_cons.mp hz with hz | hz
        · rw [hz]
          rcases lt_or_eq_of_le h with hlt | heq
          · exact Or.inl hlt
          · exact Or.inr ⟨heq, hx y (List.mem_cons_self y ys) heq.symm⟩
        · rcases hy z hz with hlt | ⟨heq, hid⟩
          · exact Or.inl (lt_of_lt_of_le hlt h)
          · rcases lt_or_eq_of_le h with hlt' | heq'
            · exact Or.inl (heq ▸ hlt')
            · refine Or.inr ⟨heq.trans heq', ?_⟩
              exact lt_trans (hx y (List.mem_cons_self y ys) heq'.symm) hid
      · rw [if_neg h]
        rw [List.pairwise_cons]
        refine ⟨?_, ih hys (fun z hz => hx z (List.mem_cons_of_mem y hz))⟩
        intro z hz
        rcases mem_insertDescP.mp hz with hz | hz
        · subst hz
          exact Or.inl (lt_of_not_le h)
        · exact hy z hz

theorem pairwise_sortDescP {l : List SpeechItem}
    (hl : l.Pairwise spStable) : (sortDescP l).Pairwise spOrder := by
  induction l with
  | nil => simp [sortDescP]
  | cons x xs ih =>
      rw [List.pairwise_cons] at hl
      obtain ⟨hx, hxs⟩ := hl
      unfold sortDescP
      exact pairwise_insertDescP (ih hxs)
        (fun y hy => hx y (mem_sortDescP.mp hy))

/-- The `SpeechQueue` invariant: the queue is in strict dequeue order and
every queued id is below `next_speech_id`. -/
def SpeechQueue.inv (q : SpeechQueue) : Prop :=
  q.queue.Pairwise spOrder ∧ ∀ x ∈ q.queue, x.id < q.next_speech_id

theorem spOrder_imp_spStable {a b : SpeechItem} (h : spOrder a b) : spStable a b := by
  intro heq
  rcases h with h | ⟨_, h⟩
  · exact absurd heq (ne_of_gt h)
  · exact h

theorem SpeechQueue.inv_empty : SpeechQueue.empty.inv := by
  refine ⟨List.Pairwise.nil, ?_⟩
  intro x hx
  simp [SpeechQueue.empty] at hx

theorem SpeechQueue.inv_add {q : SpeechQueue} (h : q.inv) (t : String) (p : Int) :
    (q.add t p).2.inv := by
  obtain ⟨hord, hid⟩ := h
  constructor
  · apply pairwise_sortDescP
    rw [List.pairwise_append]
    refine ⟨List.Pairwise.imp (fun h => spOrder_imp_spStable h) hord, ?_, ?_⟩
    · simp
    · intro a ha b hb
      simp only [List.mem_singleton] at hb
      subst hb
      intro _
      exact hid a ha
  · intro x hx
    simp only [SpeechQueue.add] at hx
    rcases List.mem_append.mp (mem_sortDescP.mp hx) with hx | hx
    · exact lt_trans (hid x hx) (Nat.lt_succ_self _)
    · simp only [List.mem_singleton] at hx
      subst hx
      exact Nat.lt_succ_self _

theorem SpeechQueue.inv_get_next {q : SpeechQueue} (h : q.inv) :
    (q.get_next).2.inv := by
  cases hq : q.queue with
  | nil =>
      have he : q.get_next = (none, q) := by
        simp [SpeechQueue.get_next, hq]
      rw [he]
      exact h
  | cons x xs =>
      have he : q.get_next
          = (some x, { q with queue := xs, current_speech_id := some x.id }) := by
        simp [SpeechQueue.get_next, hq]
      rw [he]
      obtain ⟨hord, hid⟩ := h
      rw [hq] at hord hid
      rw [List.pairwise_cons] at hord
      exact ⟨hord.2, fun y hy => hid y (List.mem_cons_of_mem x hy)⟩

/-- A run of the queue: each element of the script either enqueues
`(text, priority)` or dequeues. -/
inductive QueueOp
  | enqueue (text : String) (priority : Int)
  | dequeue
  deriving DecidableEq, Repr

def SpeechQueue.step (q : SpeechQueue) : QueueOp → SpeechQueue
  | QueueOp.enqueue t p => (q.add t p).2
  | QueueOp.dequeue => (q.get_next).2

def SpeechQueue.run (ops : List QueueOp) : SpeechQueue :=
  ops.foldl SpeechQueue.step SpeechQueue.empty

theorem SpeechQueue.inv_run (ops : List QueueOp) : (SpeechQueue.run ops).inv := by
  suffices h : ∀ (q : SpeechQueue), q.inv → (ops.foldl SpeechQueue.step q).inv from
    h SpeechQueue.empty SpeechQueue.inv_empty
  induction ops with
  | nil => exact fun q hq => hq
  | cons op ops ih =>
      intro q hq
      rw [List.foldl_cons]
      refine ih _ ?_
      cases op with
      | enqueue t p => exact SpeechQueue.inv_add hq t p
      | dequeue => exact SpeechQueue.inv_get_next hq

/-- **C7.**  In every reachable queue state: `get_next` returns the front
item, which has maximal priority among all pending items and, among those of
equal priority, the smallest id (FIFO on enqueue order); and `add` assigns
ids monotonically (`next_speech_id` is handed out and incremented, every
pending id being below it). -/
theorem claim_C7 :
    ∀ (ops : List QueueOp) (x : SpeechItem) (xs : List SpeechItem),
      (SpeechQueue.run ops).queue = x :: xs →
      ((SpeechQueue.run ops).get_next.1 = some x ∧
        (SpeechQueue.run ops).get_next.2.queue = xs) ∧
      (∀ y ∈ xs, y.priority ≤ x.priority ∧
        (y.priority = x.priority → x.id < y.id)) ∧
      (∀ y ∈ (SpeechQueue.run ops).queue,
        y.id < (SpeechQueue.run ops).next_speech_id) ∧
      (∀ (t : String) (p : Int),
        ((SpeechQueue.run ops).add t p).1 = (SpeechQueue.run ops).next_speech_id ∧
        ((SpeechQueue.run ops).add t p).2.next_speech_id
          = (SpeechQueue.run ops).next_speech_id + 1) := by
  intro ops x xs hq
  obtain ⟨hord, hid⟩ := SpeechQueue.inv_run ops
  refine ⟨?_, ?_, hid, fun t p => ⟨rfl, rfl⟩⟩
  · unfold SpeechQueue.get_next
    rw [hq]
    exact ⟨rfl, rfl⟩
  · rw [hq, List.pairwise_cons] at hord
    intro y hy
    rcases hord.1 y hy with hlt | ⟨heq, hlt⟩
    · exact ⟨le_of_lt hlt, fun heq => absurd heq (ne_of_lt hlt)⟩
    · exact ⟨le_of_eq heq, fun _ => hlt⟩

/-- **C7 witness**: enqueue `("a", 0)`, `("b", 1)`, `("c", 1)` — the queue
becomes `[b (id 1), c (id 2), a (id 0)]`, and `get_next` returns `b`: the
highest priority, FIFO among the two priority-1 items. -/
theorem claim_C7_witness :
    ((SpeechQueue.run [QueueOp.enqueue "a" 0, QueueOp.enqueue "b" 1,
        QueueOp.enqueue "c" 1]).get_next.1 = some ⟨1, "b", 1⟩ ∧
      (SpeechQueue.run [QueueOp.enqueue "a" 0, QueueOp.enqueue "b" 1,
        QueueOp.enqueue "c" 1]).get_next.2.queue
        = [⟨2, "c", 1⟩, ⟨0, "a", 0⟩]) ∧
    (∀ y ∈ [(⟨2, "c", 1⟩ : SpeechItem), ⟨0, "a", 0⟩],
      y.priority ≤ (1 : Int) ∧ (y.priority = (1 : Int) → 1 < y.id)) := by
  have h := claim_C7 [QueueOp.enqueue "a" 0, QueueOp.enqueue "b" 1,
    QueueOp.enqueue "c" 1] ⟨1, "b", 1⟩ [⟨2, "c", 1⟩, ⟨0, "a", 0⟩] (by decide)
  exact ⟨h.1, h.2.1⟩

/-! ## `InterruptionHandler` (src/lib/interruption_handler.py, lines 97-443)

Wall-clock timestamps are passed in explicitly, in milliseconds (`Int`); the
code computes `(time.time() - t) * 1000` and compares against the
millisecond config values, which the millisecond timestamps reproduce.
The latency statistics (`interruption_latencies` and the returned latency
values) are wall-clock measurements with no effect on behaviour and are not
modelled. -/

inductive InterruptionState
  | LISTENING
  | PROCESSING
  | SPEAKING
  | INTERRUPTED
  deriving DecidableEq, Repr

/-- `AudioPlaybackController` (lines 97-196); the playback id and start-time
bookkeeping fields do not affect any claim and are omitted. -/
structure PlaybackController where
  audio_buffer : AudioBuffer
  is_playing : Bool
  deriving DecidableEq, Repr

/-- `AudioPlaybackController.interrupt` (lines 166-185): when playing,
interrupt the underlying audio buffer and mark stopped. -/
def PlaybackController.interrupt (pc : PlaybackController) : PlaybackController :=
  if pc.is_playing then
    { audio_buffer := pc.audio_buffer.interrupt, is_playing := false }
  else pc

/-- `InterruptionHandler` (lines 199-256). -/
structure Handler where
  state : InterruptionState
  speech_queue : SpeechQueue
  playback_controller : PlaybackController
  enabled : Bool
  min_speech_duration_ms : Int
  stop_latency_target_ms : Int
  debounce_ms : Int
  require_confident_speech : Bool
  total_interruptions : Nat
  false_positives : Nat
  last_vad_event_time : Option Int
  speech_start_time : Option Int
  deriving DecidableEq, Repr

/-- `InterruptionHandler._handle_barge_in` (lines 325-368): interrupt
playback, clear the pending speech queue, transition to INTERRUPTED, count
the interruption. -/
def Handler.handle_barge_in (h : Handler) : Handler :=
  { h with
    playback_controller := h.playback_controller.interrupt
    speech_queue := { h.speech_queue with queue := [] }
    state := InterruptionState.INTERRUPTED
    total_interruptions := h.total_interruptions + 1 }

/-- Debounce test of `on_speech_started` (lines 278-284): the event is
dropped when it arrives within `debounce_ms` of the previously accepted
speech-start event. -/
def Handler.debounced (h : Handler) (now : Int) : Bool :=
  match h.last_vad_event_time with
  | some t => now - t < h.debounce_ms
  | none => false

/-- `InterruptionHandler.on_speech_started` (lines 267-298): after the
debounce check, record the event and speech-start times, then barge in
immediately when the agent is SPEAKING. -/
def Handler.on_speech_started (h : Handler) (now : Int) : Handler :=
  if !h.enabled then h
  else if h.debounced now then h
  else
    let h' := { h with last_vad_event_time := some now, speech_start_time := some now }
    if h'.state = InterruptionState.SPEAKING then h'.handle_barge_in else h'

/-- `InterruptionHandler.on_speech_ended` (lines 300-323): when confident
speech is required and the interval was shorter than
`min_speech_duration_ms`, count a false positive; in all cases clear the
speech-start time. -/
def Handler.on_speech_ended (h : Handler) (now : Int) : Handler :=
  if !h.enabled then h
  else
    let h1 :=
      match h.speech_start_time with
      | some t0 =>
          if h.require_confident_speech && decide (now - t0 < h.min_speech_duration_ms) then
            { h with false_positives := h.false_positives + 1 }
          else h
      | none => h
    { h1 with speech_start_time := none }

/-- A concrete SPEAKING handler: one pending speech item, playback running
on a buffer holding one frame, defaults from `__init__` (min 200 ms,
debounce 50 ms, confident speech required). -/
def c2Handler : Handler :=
  { state := InterruptionState.SPEAKING
    speech_queue := ⟨[⟨0, "pending reply", 0⟩], 1, none⟩
    playback_controller :=
      ⟨(AudioBuffer.init 8000 500).start_playback.add_audio (List.replicate 160 0), true⟩
    enabled := true
    min_speech_duration_ms := 200
    stop_latency_target_ms := 150
    debounce_ms := 50
    require_confident_speech := true
    total_interruptions := 0
    false_positives := 0
    last_vad_event_time := none
    speech_start_time := none }

/-- **C2 counterexample.**  The claim says a speech interval shorter than
`min_speech_duration_ms` never enters the barge-in path even when
`speech_started` arrives during SPEAKING.  In the code the barge-in happens
in `on_speech_started` (line 294), *before* the interval's length can be
known; `on_speech_ended` (lines 316-319) only counts a `false_positive`
afterwards.  Concretely: speech starts at t=0 ms during SPEAKING and ends at
t=100 ms < 200 ms, yet playback is interrupted, the queue is cleared and the
state is INTERRUPTED — and the false positive is counted on top. -/
theorem claim_C2_counterexample :
    ((c2Handler.on_speech_started 0).state = InterruptionState.INTERRUPTED ∧
      (c2Handler.on_speech_started 0).playback_controller.audio_buffer.interrupted = true ∧
      (c2Handler.on_speech_started 0).speech_queue.queue = [] ∧
      (c2Handler.on_speech_started 0).total_interruptions = 1) ∧
    ((c2Handler.on_speech_started 0).on_speech_ended 100).false_positives = 1 ∧
    (100 : Int) - 0 < c2Handler.min_speech_duration_ms ∧
    c2Handler.require_confident_speech = true := by
  decide

/-- **C2 (amended).**  With `require_confident_speech = true`, a speech
interval that ends before `min_speech_duration_ms` does increment
`false_positives` — but it does NOT prevent barge-in: any `speech_started`
event that passes the debounce check while the state is SPEAKING enters the
barge-in path immediately (playback interrupted, speech queue cleared, state
INTERRUPTED), and the subsequent short `on_speech_ended` changes nothing
except the `false_positives` counter and the cleared speech-start time. -/
theorem claim_C2 :
    (∀ (h : Handler) (now : Int),
      h.enabled = true → h.debounced now = false →
      h.state = InterruptionState.SPEAKING →
      (h.on_speech_started now).state = InterruptionState.INTERRUPTED ∧
      (h.on_speech_started now).speech_queue.queue = [] ∧
      (h.playback_controller.is_playing = true →
        (h.on_speech_started now).playback_controller.audio_buffer.interrupted = true) ∧
      (h.on_speech_started now).total_interruptions = h.total_interruptions + 1) ∧
    (∀ (h : Handler) (now t0 : Int),
      h.enabled = true → h.speech_start_time = some t0 →
      h.require_confident_speech = true → now - t0 < h.min_speech_duration_ms →
      h.on_speech_ended now
        = { h with
            false_positives := h.false_positives + 1
            speech_start_time := none }) := by
  constructor
  · intro h now hen hdeb hsp
    unfold Handler.on_speech_started
    rw [hen, hdeb]
    simp only [Bool.not_true, Bool.false_eq_true, if_false]
    rw [if_pos (by simpa using hsp)]
    unfold Handler.handle_barge_in PlaybackController.interrupt
    refine ⟨rfl, rfl, ?_, rfl⟩
    intro hp
    simp only [hp, if_true]
    rfl
  · intro h now t0 hen hst hreq hshort
    unfold Handler.on_speech_ended
    rw [hen, hst]
    simp only [Bool.not_true, Bool.false_eq_true, if_false]
    rw [hreq]
    simp only [true_and, Bool.true_and, decide_eq_true_eq, if_pos hshort]

/-- **C2 witness**: both conjuncts of `claim_C2` instantiated on the
concrete handler `c2Handler`. -/
theorem claim_C2_witness :
    ((c2Handler.on_speech_started 0).state = InterruptionState.INTERRUPTED ∧
      (c2Handler.on_speech_started 0).speech_queue.queue = [] ∧
      (c2Handler.playback_controller.is_playing = true →
        (c2Handler.on_speech_started 0).playback_controller.audio_buffer.interrupted = true) ∧
      (c2Handler.on_speech_started 0).total_interruptions
        = c2Handler.total_interruptions + 1) ∧
    ((c2Handler.on_speech_started 0).on_speech_ended 100
      = { c2Handler.on_speech_started 0 with
          false_positives := (c2Handler.on_speech_started 0).false_positives + 1
          speech_start_time := none }) := by
  constructor
  · exact claim_C2.1 c2Handler 0 (by decide) (by decide) (by decide)
  · exact claim_C2.2 (c2Handler.on_speech_started 0) 100 0 (by decide) (by decide)
      (by decide) (by decide)

/-! ## `EnhancedVAD` (src/lib/enhanced_vad.py, lines 21-272)

Timestamps are explicit, in milliseconds (`Int`); frame energies, which the
code computes with float division over small integer sums, are exact
rationals.  The `vad_sensitivity` and `deepgram_vad_available` fields do not
influence any transition and are omitted. -/

/-- Events the VAD delivers to its callbacks. -/
inductive VADEvent
  | started
  | ended
  deriving DecidableEq, Repr

structure EnhancedVAD where
  min_speech_duration_ms : Int
  debounce_ms : Int
  /-- `energy_threshold = 0.02` (line 54). -/
  energy_threshold : Rat
  /-- `energy_window_size = 10` (line 55). -/
  energy_window_size : Nat
  is_speech_active : Bool
  speech_start_time : Option Int
  last_event_time : Option Int
  energy_buffer : List Rat
  total_speech_events : Nat
  deepgram_events : Nat
  local_vad_events : Nat
  filtered_events : Nat
  last_deepgram_event : Option String
  deriving DecidableEq, Repr

/-- `EnhancedVAD.__init__` with the config defaults (lines 47-73). -/
def EnhancedVAD.init : EnhancedVAD :=
  { min_speech_duration_ms := 200
    debounce_ms := 50
    energy_threshold := 1 / 50
    energy_window_size := 10
    is_speech_active := false
    speech_start_time := none
    last_event_time := none
    energy_buffer := []
    total_speech_events := 0
    deepgram_events := 0
    local_vad_events := 0
    filtered_events := 0
    last_deepgram_event := none }

/-- `EnhancedVAD._trigger_speech_started` (lines 160-178). -/
def EnhancedVAD.trigger_speech_started (v : EnhancedVAD) (now : Int) :
    EnhancedVAD × List VADEvent :=
  if v.is_speech_active then (v, [])
  else
    ({ v with
        is_speech_active := true
        speech_start_time := some now
        total_speech_events := v.total_speech_events + 1 },
      [VADEvent.started])

/-- `EnhancedVAD._trigger_speech_ended` (lines 180-210): a short active
interval is filtered (counted, no callback); otherwise the `ended` callback
fires. -/
def EnhancedVAD.trigger_speech_ended (v : EnhancedVAD) (now : Int) :
    EnhancedVAD × List VADEvent :=
  if !v.is_speech_active then (v, [])
  else
    match v.speech_start_time with
    | some t0 =>
        if now - t0 < v.min_speech_duration_ms then
          ({ v with
              filtered_events := v.filtered_events + 1
              is_speech_active := false
              speech_start_time := none },
            [])
        else
          ({ v with is_speech_active := false, speech_start_time := none },
            [VADEvent.ended])
    | none =>
        ({ v with is_speech_active := false, speech_start_time := none },
          [VADEvent.ended])

/-- Tail of `on_deepgram_vad_event` (lines 105-109): dispatch on the event
type after the debounce gate. -/
def EnhancedVAD.eventDispatch (v : EnhancedVAD) (event_type : String)
    (now : Int) : EnhancedVAD × List VADEvent :=
  if event_type = "SpeechStarted" then v.trigger_speech_started now
  else if event_type = "UtteranceEnd" then v.trigger_speech_ended now
  else (v, [])

/-- `EnhancedVAD.on_deepgram_vad_event` (lines 80-109): record the event,
drop it if it arrives within `debounce_ms` of the previously accepted one,
else dispatch on the event type. -/
def EnhancedVAD.on_deepgram_vad_event (v : EnhancedVAD) (event_type : String)
    (now : Int) : EnhancedVAD × List VADEvent :=
  let v1 := { v with
    last_deepgram_event := some event_type
    deepgram_events := v.deepgram_events + 1 }
  match v1.last_event_time with
  | some t =>
      if now - t < v1.debounce_ms then (v1, [])
      else EnhancedVAD.eventDispatch { v1 with last_event_time := some now } event_type now
  | none => EnhancedVAD.eventDispatch { v1 with last_event_time := some now } event_type now

/-- `EnhancedVAD._calculate_energy` (lines 212-240): mean deviation from the
128 midpoint, normalised to `[0, 1]`. -/
def EnhancedVAD.calculate_energy (audio_data : List Nat) : Rat :=
  if audio_data.length = 0 then 0
  else
    ((audio_data.map (fun b => |(b : Int) - 128|)).sum : Rat)
      / (128 * audio_data.length)

/-- `deque(maxlen=n)` push: append, dropping the oldest entry when full. -/
def dequePush (n : Nat) (l : List Rat) (x : Rat) : List Rat :=
  let l' := l ++ [x]
  if n < l'.length then l'.drop (l'.length - n) else l'

/-- Lines 120-122 of `process_audio_frame`: compute the frame energy and
push it onto the bounded energy window. -/
def EnhancedVAD.pushEnergy (v : EnhancedVAD) (audio_data : List Nat) : EnhancedVAD :=
  { v with
    energy_buffer := dequePush v.energy_window_size v.energy_buffer
      (EnhancedVAD.calculate_energy audio_data) }

/-- The running average of the energy window exceeds the threshold
(`is_speech`, line 131). -/
def EnhancedVAD.isSpeechAvg (v : EnhancedVAD) : Bool :=
  decide (v.energy_threshold < v.energy_buffer.sum / (v.energy_buffer.length : Rat))

/-- `EnhancedVAD.process_audio_frame` (lines 111-158), the local energy VAD:
append the frame energy; once the window is full, compare the running
average against the threshold.  A rising edge triggers `speech_started`
immediately; a falling edge applies the minimum-duration check first. -/
def EnhancedVAD.process_audio_frame (v : EnhancedVAD) (audio_data : List Nat)
    (now : Int) : EnhancedVAD × List VADEvent :=
  let v1 := v.pushEnergy audio_data
  if v1.energy_buffer.length < v1.energy_window_size then (v1, [])
  else if v1.isSpeechAvg && !v1.is_speech_active then
    EnhancedVAD.trigger_speech_started
      { v1 with local_vad_events := v1.local_vad_events + 1 } now
  else if !v1.isSpeechAvg && v1.is_speech_active then
    match v1.speech_start_time with
    | some t0 =>
        if v1.min_speech_duration_ms ≤ now - t0 then
          v1.trigger_speech_ended now
        else
          ({ v1 with
              filtered_events := v1.filtered_events + 1
              is_speech_active := false
              speech_start_time := none },
            [])
    | none => (v1, [])
  else (v1, [])

@[simp] theorem EnhancedVAD.pushEnergy_is_speech_active (v : EnhancedVAD)
    (f : List Nat) : (v.pushEnergy f).is_speech_active = v.is_speech_active := rfl

@[simp] theorem EnhancedVAD.pushEnergy_speech_start_time (v : EnhancedVAD)
    (f : List Nat) : (v.pushEnergy f).speech_start_time = v.speech_start_time := rfl

@[simp] theorem EnhancedVAD.pushEnergy_min_speech (v : EnhancedVAD)
    (f : List Nat) : (v.pushEnergy f).min_speech_duration_ms = v.min_speech_duration_ms := rfl

/-- The debounce gate of `on_deepgram_vad_event`: the event is accepted. -/
def EnhancedVAD.debouncePass (v : EnhancedVAD) (now : Int) : Prop :=
  match v.last_event_time with
  | some t => v.debounce_ms ≤ now - t
  | none => True

instance (v : EnhancedVAD) (now : Int) : Decidable (v.debouncePass now) := by
  unfold EnhancedVAD.debouncePass
  cases v.last_event_time with
  | none => exact inferInstanceAs (Decidable True)
  | some t => exact inferInstanceAs (Decidable (_ ≤ _))

/-- **C6.**  (1) A Deepgram VAD event within `debounce_ms` of the previously
accepted event is ignored: no callback fires and only the event log fields
change.  (2) An accepted `UtteranceEnd` whose active interval is shorter
than `min_speech_duration_ms` fires no `speech_ended` callback and
increments `filtered_events`.  (3) Local energy VAD with a full window:
a rising edge of the running average fires `speech_started` immediately,
while a falling edge fires `speech_ended` only when the interval met the
minimum duration, otherwise filtering it. -/
theorem claim_C6 :
    (∀ (v : EnhancedVAD) (ty : String) (now t : Int),
      v.last_event_time = some t → now - t < v.debounce_ms →
      v.on_deepgram_vad_event ty now
        = ({ v with
              last_deepgram_event := some ty
              deepgram_events := v.deepgram_events + 1 },
            [])) ∧
    (∀ (v : EnhancedVAD) (now t0 : Int),
      v.debouncePass now → v.is_speech_active = true →
      v.speech_start_time = some t0 → now - t0 < v.min_speech_duration_ms →
      (v.on_deepgram_vad_event "UtteranceEnd" now).2 = [] ∧
      (v.on_deepgram_vad_event "UtteranceEnd" now).1.filtered_events
        = v.filtered_events + 1) ∧
    (∀ (v : EnhancedVAD) (frame : List Nat) (now : Int),
      (v.pushEnergy frame).energy_buffer.length
        = (v.pushEnergy frame).energy_window_size →
      (v.is_speech_active = false →
        (v.pushEnergy frame).isSpeechAvg = true →
        v.process_audio_frame frame now
          = ({ v.pushEnergy frame with
                is_speech_active := true
                speech_start_time := some now
                local_vad_events := (v.pushEnergy frame).local_vad_events + 1
                total_speech_events := (v.pushEnergy frame).total_speech_events + 1 },
              [VADEvent.started])) ∧
      (∀ t0 : Int, v.is_speech_active = true → v.speech_start_time = some t0 →
        (v.pushEnergy frame).isSpeechAvg = false →
        ((v.min_speech_duration_ms ≤ now - t0 →
          v.process_audio_frame frame now
            = ({ v.pushEnergy frame with
                  is_speech_active := false
                  speech_start_time := none },
                [VADEvent.ended])) ∧
         (now - t0 < v.min_speech_duration_ms →
          v.process_audio_frame frame now
            = ({ v.pushEnergy frame with
                  filtered_events := (v.pushEnergy frame).filtered_events + 1
                  is_speech_active := false
                  speech_start_time := none },
                []))))) := by
  refine ⟨?_, ?_, ?_⟩
  · intro v ty now t hlast hdeb
    unfold EnhancedVAD.on_deepgram_vad_event
    simp only [hlast]
    rw [if_pos hdeb]
  · intro v now t0 hpass hact hstart hshort
    have hstep : v.on_deepgram_vad_event "UtteranceEnd" now
        = EnhancedVAD.trigger_speech_ended
            { v with
              last_deepgram_event := some "UtteranceEnd"
              deepgram_events := v.deepgram_events + 1
              last_event_time := some now } now := by
      unfold EnhancedVAD.on_deepgram_vad_event EnhancedVAD.eventDispatch
      unfold EnhancedVAD.debouncePass at hpass
      cases hlast : v.last_event_time with
      | none => simp [hlast]
      | some t =>
          rw [hlast] at hpass
          simp only [hlast]
          rw [if_neg (by exact not_lt.mpr hpass)]
          simp
    rw [hstep]
    unfold EnhancedVAD.trigger_speech_ended
    simp only [hact, Bool.not_true, Bool.false_eq_true, if_false, hstart]
    rw [if_pos hshort]
    exact ⟨rfl, rfl⟩
  · intro v frame now hfull
    constructor
    · intro hact havg
      unfold EnhancedVAD.process_audio_frame
      rw [if_neg (by rw [hfull]; exact lt_irrefl _)]
      rw [if_pos (by simp [havg, hact])]
      unfold EnhancedVAD.trigger_speech_started
      rw [if_neg (by simp [hact])]
    · intro t0 hact hstart havg
      constructor
      · intro hlong
        unfold EnhancedVAD.process_audio_frame
        rw [if_neg (by rw [hfull]; exact lt_irrefl _)]
        rw [if_neg (by simp [hact, havg])]
        rw [if_pos (by simp [hact, havg])]
        simp only [EnhancedVAD.pushEnergy_speech_start_time, hstart]
        rw [if_pos (by simpa using hlong)]
        unfold EnhancedVAD.trigger_speech_ended
        simp only [EnhancedVAD.pushEnergy_is_speech_active, hact, Bool.not_true,
          Bool.false_eq_true, if_false]
        simp only [EnhancedVAD.pushEnergy_speech_start_time, hstart]
        rw [if_neg (by simpa using not_lt.mpr hlong)]
      · intro hshort
        unfold EnhancedVAD.process_audio_frame
        rw [if_neg (by rw [hfull]; exact lt_irrefl _)]
        rw [if_neg (by simp [hact, havg])]
        rw [if_pos (by simp [hact, havg])]
        simp only [EnhancedVAD.pushEnergy_speech_start_time, hstart]
        rw [if_neg (by simpa using not_le.mpr hshort)]

/-- Concrete VAD states for the C6 witness. -/
def c6VadA : EnhancedVAD := { EnhancedVAD.init with last_event_time := some 0 }

def c6VadB : EnhancedVAD :=
  { EnhancedVAD.init with is_speech_active := true, speech_start_time := some 0 }

def c6VadC : EnhancedVAD := { EnhancedVAD.init with energy_buffer := List.replicate 9 1 }

/-- **C6 witness**: all three conjuncts of `claim_C6` instantiated — an
event at 30 ms after one accepted at 0 ms is debounced (30 < 50); an
utterance of 100 ms < 200 ms is filtered; a full window of high energies
(frame byte 0 has energy `128/128 = 1 > 1/50`) fires `speech_started`. -/
theorem claim_C6_witness :
    (c6VadA.on_deepgram_vad_event "SpeechStarted" 30
      = ({ c6VadA with
            last_deepgram_event := some "SpeechStarted"
            deepgram_events := c6VadA.deepgram_events + 1 },
          [])) ∧
    ((c6VadB.on_deepgram_vad_event "UtteranceEnd" 100).2 = [] ∧
      (c6VadB.on_deepgram_vad_event "UtteranceEnd" 100).1.filtered_events
        = c6VadB.filtered_events + 1) ∧
    (c6VadC.process_audio_frame [0] 0
      = ({ c6VadC.pushEnergy [0] with
            is_speech_active := true
            speech_start_time := some 0
            local_vad_events := (c6VadC.pushEnergy [0]).local_vad_events + 1
            total_speech_events := (c6VadC.pushEnergy [0]).total_speech_events + 1 },
          [VADEvent.started])) := by
  have he : EnhancedVAD.calculate_energy [0] = 1 := by
    have hmap : (([0] : List Nat).map (fun b => |(b : Int) - 128|)).sum = 128 := by
      decide
    unfold EnhancedVAD.calculate_energy
    rw [if_neg (by decide), hmap]
    norm_num
  have hpush : c6VadC.pushEnergy [0]
      = { c6VadC with energy_buffer := List.replicate 9 1 ++ [1] } := by
    unfold EnhancedVAD.pushEnergy dequePush
    rw [he]
    norm_num [c6VadC, EnhancedVAD.init]
  refine ⟨?_, ?_, ?_⟩
  · exact claim_C6.1 c6VadA "SpeechStarted" 30 0 rfl (by decide)
  · exact claim_C6.2.1 c6VadB 100 0 (by trivial) rfl rfl (by decide)
  · refine (claim_C6.2.2 c6VadC [0] 0 ?_).1 rfl ?_
    · rw [hpush]
      simp [c6VadC, EnhancedVAD.init]
    · rw [hpush]
      simp only [EnhancedVAD.isSpeechAvg, decide_eq_true_eq, c6VadC, EnhancedVAD.init]
      norm_num [List.sum_append, List.sum_replicate]

/-! ## `StreamCoordinator` (src/lib/streaming_orchestrator.py, lines 103-156) -/

structure StreamCoordinator where
  chunk_size : Nat
  buffer : List String
  flushed : Bool
  deriving DecidableEq, Repr

/-- `StreamCoordinator.__init__` (lines 111-114); the orchestrator passes
`stream_chunk_size`, default 512. -/
def StreamCoordinator.init (chunk_size : Nat := 512) : StreamCoordinator :=
  { chunk_size := chunk_size, buffer := [], flushed := false }

/-- `StreamCoordinator._flush_buffer` (lines 152-156): join and empty the
buffer. -/
def StreamCoordinator.flush_buffer (c : StreamCoordinator) :
    String × StreamCoordinator :=
  (pyJoin c.buffer, { c with buffer := [] })

/-- The flush condition of `add_token` (lines 133-141), checked on the
buffered text after appending: length at or above `chunk_size`; or a
sentence end `.`/`!`/`?` after stripping trailing whitespace; or length
above 100 with a clause end `,` after stripping trailing whitespace. -/
def StreamCoordinator.shouldFlush (chunk_size : Nat) (text : String) : Bool :=
  decide (chunk_size ≤ text.length) ||
    endsWithAny (pyRstrip text) ['.', '!', '?'] ||
    (decide (100 < text.length) && endsWithAny (pyRstrip text) [','])

/-- `StreamCoordinator.add_token` (lines 116-143): append the token, then
flush (`_flush_buffer`: return the joined text with the buffer emptied)
when the buffered text is long enough or ends at a sentence or clause
boundary. -/
def StreamCoordinator.add_token (c : StreamCoordinator) (token : String) :
    Option String × StreamCoordinator :=
  if StreamCoordinator.shouldFlush c.chunk_size (pyJoin (c.buffer ++ [token])) then
    (some (pyJoin (c.buffer ++ [token])), { c with buffer := [] })
  else (none, { c with buffer := c.buffer ++ [token] })

/-- `StreamCoordinator.flush` (lines 145-150): flush the remainder at most
once. -/
def StreamCoordinator.flush (c : StreamCoordinator) :
    Option String × StreamCoordinator :=
  if c.buffer ≠ [] ∧ ¬c.flushed = true then
    let (t, c2) := { c with flushed := true }.flush_buffer
    (some t, c2)
  else (none, c)

/-- The chunk condition exactly as the claim words it (no `rstrip` before
the `endswith` checks), for comparison with the code's `shouldFlush`. -/
def claimedFlushCond (chunk_size : Nat) (text : String) : Bool :=
  decide (chunk_size ≤ text.length) ||
    endsWithAny text ['.', '!', '?'] ||
    (decide (100 < text.length) && endsWithAny text [','])

/-- **C5 counterexample.**  The claim's conditions test the buffered text
itself, but the code tests `current_text.rstrip()` (lines 137 and 140).  On
the single token `"Hi. "` the buffered text ends in a space, so the claimed
conditions say "keep buffering" — yet `add_token` returns the chunk
`"Hi. "` because after stripping the trailing space the text ends in `.`. -/
theorem claim_C5_counterexample :
    ((StreamCoordinator.init 512).add_token "Hi. ").1 = some "Hi. " ∧
      claimedFlushCond 512 "Hi. " = false := by
  constructor
  · rfl
  · rfl

/-- **C5 (amended).**  `add_token` returns a chunk exactly when, after
appending the token, (1) the buffered text length is at least `chunk_size`,
or (2) the buffered text stripped of trailing whitespace ends with `.`, `!`
or `?`, or (3) the buffered text length exceeds 100 and, stripped of
trailing whitespace, it ends with `,` — the conditions checked in this
order on `current_text` with `rstrip()` applied before each `endswith`.
The returned chunk is the whole buffered text (whitespace intact) and the
buffer is emptied; otherwise the token is only buffered.  `flush()` returns
the remaining buffered text at most once: a flush that returns text sets
`flushed`, and any later `flush()` returns nothing. -/
theorem claim_C5 :
    (∀ (c : StreamCoordinator) (token : String),
      (StreamCoordinator.shouldFlush c.chunk_size (pyJoin (c.buffer ++ [token])) = true →
        c.add_token token
          = (some (pyJoin (c.buffer ++ [token])),
              { c with buffer := [] })) ∧
      (StreamCoordinator.shouldFlush c.chunk_size (pyJoin (c.buffer ++ [token])) = false →
        c.add_token token = (none, { c with buffer := c.buffer ++ [token] }))) ∧
    (∀ c : StreamCoordinator, c.buffer ≠ [] → c.flushed = false →
      c.flush = (some (pyJoin c.buffer), { c with buffer := [], flushed := true })) ∧
    (∀ (c c' : StreamCoordinator) (t : String),
      c.flush = (some t, c') → c'.flush = (none, c')) := by
  refine ⟨?_, ?_, ?_⟩
  · intro c token
    constructor
    · intro hcond
      unfold StreamCoordinator.add_token
      rw [if_pos hcond]
    · intro hcond
      unfold StreamCoordinator.add_token
      rw [if_neg (by simp [hcond])]
  · intro c hbuf hfl
    unfold StreamCoordinator.flush
    rw [if_pos ⟨hbuf, by simp [hfl]⟩]
    rfl
  · intro c c' t hflush
    unfold StreamCoordinator.flush at hflush
    by_cases hcond : c.buffer ≠ [] ∧ ¬c.flushed = true
    · rw [if_pos hcond] at hflush
      have hc' : c' = { c with buffer := [], flushed := true } := by
        have := congrArg Prod.snd hflush
        simpa [StreamCoordinator.flush_buffer] using this.symm
      rw [hc']
      unfold StreamCoordinator.flush
      rw [if_neg (by simp)]
    · rw [if_neg hcond] at hflush
      exact absurd (congrArg Prod.fst hflush) (by simp)

/-- Concrete coordinator states for the C5 witness. -/
def c5Long : StreamCoordinator := ⟨512, [String.mk (List.replicate 99 'a')], false⟩

def c5Empty : StreamCoordinator := ⟨512, [], false⟩

def c5X : StreamCoordinator := ⟨512, ["x"], false⟩

/-- **C5 witness**: a 99-character buffer plus the token `", "` flushes by
the clause rule (length 101 > 100, ends `,` after `rstrip`); a token `"x"`
alone does not flush; the first `flush()` returns the remainder and a second
returns nothing. -/
theorem claim_C5_witness :
    (c5Long.add_token ", "
      = (some (pyJoin (c5Long.buffer ++ [", "])),
          { c5Long with buffer := [] })) ∧
    (c5Empty.add_token "x" = (none, { c5Empty with buffer := ["x"] })) ∧
    (c5X.flush = (some (pyJoin c5X.buffer),
      { c5X with buffer := [], flushed := true })) ∧
    ({ c5X with buffer := [], flushed := true } : StreamCoordinator).flush
      = (none, { c5X with buffer := [], flushed := true }) := by
  refine ⟨?_, ?_, ?_, ?_⟩
  · exact (claim_C5.1 c5Long ", ").1 (by decide)
  · exact (claim_C5.1 c5Empty "x").2 (by decide)
  · exact claim_C5.2.1 c5X (by decide) rfl
  · exact claim_C5.2.2 c5X { c5X with buffer := [], flushed := true }
      (pyJoin c5X.buffer) (claim_C5.2.1 c5X (by decide) rfl)

/-! ## `StreamingOrchestrator._streaming_pipeline` (lines 270-405) and
`process_transcript` (lines 205-268)

`response_tokens` accumulates every token of the LLM stream (line 372) and
the returned `response_text` joins them all (line 398); each token is also
fed to the `StreamCoordinator`, whose chunks (and the final `flush`, lines
380-384) are sent to TTS.  When the pipeline task is cancelled (barge-in),
the `CancelledError` propagates out of `process_transcript` (the handler at
lines 262-266 re-raises), so no result dictionary — and hence no recorded
assistant text — is produced; a cancelled run is therefore modelled as
`none`. -/

def streamingResponseText (response_tokens : List String) : String :=
  pyJoin response_tokens

/-- Result of `process_transcript` as seen by the caller that records the
assistant turn: `none` when the run was cancelled after `k` tokens,
otherwise the full joined token text. -/
def processTranscriptRecorded (tokens : List String) :
    Option Nat → Option String
  | some _ => none
  | none => some (streamingResponseText tokens)

/-- One step of the token loop (lines 356-377): feed the token to the
coordinator and collect the chunk it returns, if any. -/
def coordStep (acc : StreamCoordinator × List String) (t : String) :
    StreamCoordinator × List String :=
  match acc.1.add_token t with
  | (some chunk, c') => (c', acc.2 ++ [chunk])
  | (none, c') => (c', acc.2)

/-- The token loop over the whole LLM stream. -/
def runCoordinator (c : StreamCoordinator) (tokens : List String) :
    StreamCoordinator × List String :=
  tokens.foldl coordStep (c, [])

/-- All text sent to the TTS websocket: the chunks emitted during the token
loop plus the final `flush` (lines 380-384). -/
def sentToTTS (chunk_size : Nat) (tokens : List String) : List String :=
  (runCoordinator (StreamCoordinator.init chunk_size) tokens).2 ++
    ((runCoordinator (StreamCoordinator.init chunk_size) tokens).1.flush).1.toList

theorem add_token_text (c : StreamCoordinator) (t : String) :
    pyJoin ((c.add_token t).1.toList) ++ pyJoin (c.add_token t).2.buffer
        = pyJoin c.buffer ++ t ∧
      (c.add_token t).2.flushed = c.flushed := by
  unfold StreamCoordinator.add_token
  by_cases h : StreamCoordinator.shouldFlush c.chunk_size (pyJoin (c.buffer ++ [t])) = true
  · rw [if_pos h]
    refine ⟨?_, rfl⟩
    show pyJoin [pyJoin (c.buffer ++ [t])] ++ pyJoin [] = pyJoin c.buffer ++ t
    simp [pyJoin, pyJoin_append]
  · rw [if_neg h]
    refine ⟨?_, rfl⟩
    show pyJoin [] ++ pyJoin (c.buffer ++ [t]) = pyJoin c.buffer ++ t
    simp [pyJoin, pyJoin_append]

theorem coordLoop_text (tokens : List String) :
    ∀ (c : StreamCoordinator) (chunks : List String),
      pyJoin (tokens.foldl coordStep (c, chunks)).2 ++
          pyJoin (tokens.foldl coordStep (c, chunks)).1.buffer
        = pyJoin chunks ++ (pyJoin c.buffer ++ pyJoin tokens) ∧
      (tokens.foldl coordStep (c, chunks)).1.flushed = c.flushed := by
  induction tokens with
  | nil =>
      intro c chunks
      refine ⟨?_, rfl⟩
      simp [pyJoin]
  | cons t ts ih =>
      intro c chunks
      rw [List.foldl_cons]
      obtain ⟨ha, hfl⟩ := add_token_text c t
      rcases hstep : c.add_token t with ⟨o, c'⟩
      rw [hstep] at ha hfl
      have hcs : coordStep (c, chunks) t = (c', chunks ++ o.toList) := by
        unfold coordStep
        rw [hstep]
        cases o <;> simp
      rw [hcs]
      obtain ⟨hih, hihfl⟩ := ih c' (chunks ++ o.toList)
      refine ⟨?_, hihfl.trans hfl⟩
      rw [hih]
      calc pyJoin (chunks ++ o.toList) ++ (pyJoin c'.buffer ++ pyJoin ts)
          = (pyJoin chunks ++ pyJoin o.toList) ++ (pyJoin c'.buffer ++ pyJoin ts) := by
            rw [pyJoin_append]
        _ = pyJoin chunks ++ ((pyJoin o.toList ++ pyJoin c'.buffer) ++ pyJoin ts) := by
            rw [String.append_assoc, ← String.append_assoc (pyJoin o.toList)]
        _ = pyJoin chunks ++ ((pyJoin c.buffer ++ t) ++ pyJoin ts) := by rw [ha]
        _ = pyJoin chunks ++ (pyJoin c.buffer ++ (t ++ pyJoin ts)) := by
            rw [String.append_assoc]
        _ = pyJoin chunks ++ (pyJoin c.buffer ++ pyJoin (t :: ts)) := rfl

/-- **C1 counterexample.**  The claim says a run cancelled after some but
not all TTS frames played records exactly the played prefix.  Take the token
stream `["Hello ", "world."]`, cancelled after the first chunk: the code
records nothing on cancellation (the `CancelledError` re-raised at lines
262-266 means no result is returned), and the only text
`_streaming_pipeline` can ever return is the full join `"Hello world."`
(line 398) — never the prefix `"Hello "`. -/
theorem claim_C1_counterexample :
    processTranscriptRecorded ["Hello ", "world."] (some 1) ≠ some "Hello " ∧
    streamingResponseText ["Hello ", "world."] = "Hello world." ∧
    ("Hello world." : String) ≠ "Hello " := by
  refine ⟨by decide, by decide, by decide⟩

/-- **C1 (amended).**  A cancelled run records no assistant text at all (the
pipeline raises out of `process_transcript`); a completed run always records
the full accumulated token text — which equals the concatenation of all
chunks forwarded to TTS, including the final flush — regardless of how many
frames were actually played.  No played-prefix truncation exists. -/
theorem claim_C1 :
    (∀ (tokens : List String) (k : Nat),
      processTranscriptRecorded tokens (some k) = none) ∧
    (∀ tokens : List String,
      processTranscriptRecorded tokens none = some (streamingResponseText tokens)) ∧
    (∀ (chunk_size : Nat) (tokens : List String),
      pyJoin (sentToTTS chunk_size tokens) = streamingResponseText tokens) := by
  refine ⟨fun tokens k => rfl, fun tokens => rfl, ?_⟩
  intro chunk_size tokens
  obtain ⟨hrun, hfl⟩ := coordLoop_text tokens (StreamCoordinator.init chunk_size) []
  have hrun' : pyJoin (runCoordinator (StreamCoordinator.init chunk_size) tokens).2 ++
      pyJoin (runCoordinator (StreamCoordinator.init chunk_size) tokens).1.buffer
        = pyJoin tokens := by
    rw [runCoordinator, hrun]
    simp [pyJoin, StreamCoordinator.init]
  have hfl' : (runCoordinator (StreamCoordinator.init chunk_size) tokens).1.flushed
      = false := hfl
  unfold sentToTTS
  rcases hb : (runCoordinator (StreamCoordinator.init chunk_size) tokens).1.buffer with _ | ⟨x, xs⟩
  · have hflush : ((runCoordinator (StreamCoordinator.init chunk_size) tokens).1.flush).1
        = none := by
      unfold StreamCoordinator.flush
      rw [if_neg (by simp [hb])]
    rw [hflush]
    show pyJoin ((runCoordinator (StreamCoordinator.init chunk_size) tokens).2 ++ [])
        = streamingResponseText tokens
    rw [List.append_nil, streamingResponseText, ← hrun', hb]
    simp [pyJoin]
  · have hflush : ((runCoordinator (StreamCoordinator.init chunk_size) tokens).1.flush).1
        = some (pyJoin (runCoordinator (StreamCoordinator.init chunk_size) tokens).1.buffer) := by
      unfold StreamCoordinator.flush
      rw [if_pos ⟨by rw [hb]; simp, by rw [hfl']; simp⟩]
      rfl
    rw [hflush]
    show pyJoin ((runCoordinator (StreamCoordinator.init chunk_size) tokens).2 ++
        [pyJoin (runCoordinator (StreamCoordinator.init chunk_size) tokens).1.buffer])
        = streamingResponseText tokens
    rw [pyJoin_append, streamingResponseText, ← hrun']
    simp [pyJoin]

/-! ## `LLMClient._build_messages` (src/lib/llm_client.py, lines 75-109)
and the request assembly of `generate`/`generate_stream` (lines 162-167,
242-248).  A turn/message is a `{role, content}` record. -/

structure ChatMsg where
  role : String
  content : String
  deriving DecidableEq, Repr

/-- The forwarding test of the history loop (line 97):
`role in ["user", "assistant"] and content.strip()`. -/
def turnForwarded (t : ChatMsg) : Bool :=
  (t.role == "user" || t.role == "assistant") && !(pyStrip t.content == "")

/-- Python's `l[-n:]` for a list and a non-negative `n`: the last `n`
elements — except that `l[-0:]` is `l[0:]`, the whole list. -/
def pySliceLast (n : Nat) (l : List α) : List α :=
  if n = 0 then l else l.drop (l.length - n)

/-- The `for turn in ...` loop of `_build_messages` (lines 93-101). -/
def buildLoop : List ChatMsg → List ChatMsg
  | [] => []
  | t :: ts =>
      if turnForwarded t then ⟨t.role, t.content⟩ :: buildLoop ts
      else buildLoop ts

/-- `LLMClient._build_messages` (lines 75-109): filter the sliding window of
the last `max_history_turns` turns, then append the current user message. -/
def build_messages (max_history_turns : Nat) (conversation_context : List ChatMsg)
    (user_message : String) : List ChatMsg :=
  buildLoop (pySliceLast max_history_turns conversation_context) ++
    [⟨"user", user_message⟩]

/-- The request sent to the API by `generate`/`generate_stream` (lines
162-167): the system prompt rides out-of-band in the `system` field
(`self.system_prompt if self.system_prompt else None`), never as a
message. -/
structure LLMRequest where
  system : Option String
  messages : List ChatMsg
  deriving DecidableEq, Repr

def generateRequest (system_prompt : String) (max_history_turns : Nat)
    (conversation_context : List ChatMsg) (user_message : String) : LLMRequest :=
  { system := if system_prompt == "" then none else some system_prompt
    messages := build_messages max_history_turns conversation_context user_message }

theorem buildLoop_eq_filter (l : List ChatMsg) :
    buildLoop l = l.filter turnForwarded := by
  induction l with
  | nil => rfl
  | cons t ts ih =>
      unfold buildLoop
      by_cases h : turnForwarded t = true
      · rw [if_pos h, List.filter_cons_of_pos h, ih]
      · rw [if_neg h, List.filter_cons_of_neg (by simpa using h), ih]

/-- **C8.**  For any configured `max_history_turns ≥ 1` (default 20), the
messages sent to the LLM are exactly the turns of the last
`max_history_turns` entries of the context whose role is `user` or
`assistant` and whose text is non-empty after stripping, in order, followed
by the current user message; every message has role `user` or `assistant`
(so `system` turns are never forwarded), and the system prompt is passed
out-of-band in the request's `system` field. -/
theorem claim_C8 :
    ∀ (n : Nat) (system_prompt user : String) (ctx : List ChatMsg),
      1 ≤ n →
      (generateRequest system_prompt n ctx user).messages
        = (ctx.drop (ctx.length - n)).filter turnForwarded ++ [⟨"user", user⟩] ∧
      (∀ m ∈ (generateRequest system_prompt n ctx user).messages,
        (m.role = "user" ∨ m.role = "assistant") ∧ m.role ≠ "system") ∧
      (generateRequest system_prompt n ctx user).system
        = (if system_prompt = "" then none else some system_prompt) := by
  intro n system_prompt user ctx hn
  have hmsg : (generateRequest system_prompt n ctx user).messages
      = (ctx.drop (ctx.length - n)).filter turnForwarded ++ [⟨"user", user⟩] := by
    show build_messages n ctx user = _
    unfold build_messages pySliceLast
    rw [if_neg (by omega), buildLoop_eq_filter]
  refine ⟨hmsg, ?_, ?_⟩
  · intro m hm
    rw [hmsg] at hm
    rcases List.mem_append.mp hm with hm | hm
    · have hf := List.of_mem_filter hm
      unfold turnForwarded at hf
      simp only [Bool.and_eq_true, Bool.or_eq_true, beq_iff_eq] at hf
      rcases hf.1 with h | h
      · exact ⟨Or.inl h, by rw [h]; decide⟩
      · exact ⟨Or.inr h, by rw [h]; decide⟩
    · simp only [List.mem_singleton] at hm
      rw [hm]
      refine ⟨Or.inl rfl, ?_⟩
      show ("user" : String) ≠ "system"
      decide
  · show (if system_prompt == "" then none else some system_prompt) = _
    by_cases h : system_prompt = ""
    · rw [if_pos (by simpa using h), if_pos h]
    · rw [if_neg (by simpa using h), if_neg h]

/-- **C8 witness**: with the default window of 20, a context holding a
system turn, a whitespace-only assistant turn, and a real user/assistant
pair forwards exactly the pair plus the fresh user message, with the system
prompt out-of-band. -/
theorem claim_C8_witness :
    (generateRequest "be brief" 20
        [⟨"system", "internal"⟩, ⟨"assistant", "  "⟩, ⟨"user", "hi"⟩,
          ⟨"assistant", "hello"⟩] "how are you?").messages
      = [⟨"user", "hi"⟩, ⟨"assistant", "hello"⟩, ⟨"user", "how are you?"⟩] ∧
    (generateRequest "be brief" 20
        [⟨"system", "internal"⟩, ⟨"assistant", "  "⟩, ⟨"user", "hi"⟩,
          ⟨"assistant", "hello"⟩] "how are you?").system = some "be brief" := by
  have h := claim_C8 20 "be brief" "how are you?"
    [⟨"system", "internal"⟩, ⟨"assistant", "  "⟩, ⟨"user", "hi"⟩,
      ⟨"assistant", "hello"⟩] (by decide)
  refine ⟨?_, ?_⟩
  · rw [h.1]
    decide
  · rw [h.2.2]
    decide

/-! ## `ConversationContext.add_turn` (src/lib/conversation.py, lines 57-69)

A stored `Turn` keeps the constructor arguments; the derived
intent/sentiment/timestamp metadata and the `metadata` dictionary never
influence the `turns` list and are omitted. -/

structure ConvTurn where
  speaker : String
  text : String
  confidence : Rat
  deriving DecidableEq, Repr

/-- `add_turn` restricted to its effect on `self.turns`: append the new
turn, then keep only the last 10 turns (lines 59-64). -/
def conversationAddTurn (turns : List ConvTurn) (t : ConvTurn) : List ConvTurn :=
  if 10 < (turns ++ [t]).length then
    (turns ++ [t]).drop ((turns ++ [t]).length - 10)
  else turns ++ [t]

/-- The history after adding the turns of `l` in order to a fresh context. -/
def conversationHistory (l : List ConvTurn) : List ConvTurn :=
  l.foldl conversationAddTurn []

theorem conversationHistory_append (l : List ConvTurn) (t : ConvTurn) :
    conversationHistory (l ++ [t])
      = conversationAddTurn (conversationHistory l) t := by
  unfold conversationHistory
  rw [List.foldl_append]
  rfl

theorem conversationHistory_eq (l : List ConvTurn) :
    conversationHistory l = l.drop (l.length - 10) := by
  induction l using List.reverseRecOn with
  | nil => rfl
  | append_singleton l t ih =>
      rw [conversationHistory_append, ih]
      unfold conversationAddTurn
      by_cases hlen : l.length ≤ 9
      · have h0 : l.length - 10 = 0 := by omega
        rw [h0, List.drop_zero]
        rw [if_neg (by simp only [List.length_append, List.length_singleton]; omega)]
        have h1 : (l ++ [t]).length - 10 = 0 := by
          simp only [List.length_append, List.length_singleton]
          omega
        rw [h1, List.drop_zero]
      · have hge : 10 ≤ l.length := by omega
        have hdl : (l.drop (l.length - 10)).length = 10 := by
          rw [List.length_drop]
          omega
        rw [if_pos (by simp only [List.length_append, List.length_singleton, hdl]; omega)]
        rw [← List.drop_append_of_le_length (show l.length - 10 ≤ l.length by omega)]
        rw [List.drop_drop]
        congr 1
        simp only [List.length_append, List.length_singleton, List.length_drop, hdl]
        omega

/-- Eleven distinct turns, `t0` … `t10`. -/
def c9Turns : List ConvTurn :=
  [⟨"user", "t0", 1⟩, ⟨"user", "t1", 1⟩, ⟨"user", "t2", 1⟩, ⟨"user", "t3", 1⟩,
    ⟨"user", "t4", 1⟩, ⟨"user", "t5", 1⟩, ⟨"user", "t6", 1⟩, ⟨"user", "t7", 1⟩,
    ⟨"user", "t8", 1⟩, ⟨"user", "t9", 1⟩, ⟨"user", "t10", 1⟩]

/-- **C9 counterexample.**  `add_turn` is not append-only: it keeps only the
last 10 turns (lines 62-64).  After 11 `add_turn` calls the first turn is
gone and the history holds 10 turns, not 11. -/
theorem claim_C9_counterexample :
    (conversationHistory c9Turns).length = 10 ∧
    c9Turns.length = 11 ∧
    (⟨"user", "t0", 1⟩ : ConvTurn) ∈ c9Turns ∧
    (⟨"user", "t0", 1⟩ : ConvTurn) ∉ conversationHistory c9Turns := by
  refine ⟨by decide, by decide, by decide, by decide⟩

/-- **C9 (amended).**  `add_turn` appends the new turn and then truncates to
the last 10 turns: after `n` calls the history is exactly the last
`min n 10` turns, unchanged and in order (a suffix of the full sequence);
in particular for `n ≤ 10` it is append-only, containing all `n` turns. -/
theorem claim_C9 :
    ∀ l : List ConvTurn,
      conversationHistory l = l.drop (l.length - 10) ∧
      (l.length ≤ 10 → conversationHistory l = l) ∧
      conversationHistory l <:+ l := by
  intro l
  refine ⟨conversationHistory_eq l, ?_, ?_⟩
  · intro hle
    rw [conversationHistory_eq l]
    have h0 : l.length - 10 = 0 := by omega
    rw [h0, List.drop_zero]
  · rw [conversationHistory_eq l]
    exact List.drop_suffix _ _

/-- **C9 witness**: instantiation of `claim_C9` on three turns — the
history keeps all of them. -/
theorem claim_C9_witness :
    conversationHistory [⟨"user", "a", 1⟩, ⟨"agent", "b", 1⟩, ⟨"user", "c", 1⟩]
      = [⟨"user", "a", 1⟩, ⟨"agent", "b", 1⟩, ⟨"user", "c", 1⟩] := by
  exact (claim_C9 [⟨"user", "a", 1⟩, ⟨"agent", "b", 1⟩, ⟨"user", "c", 1⟩]).2.1
    (by decide)

/-! ## PSTN admission control (src/server.py)

`active_calls` is a dict keyed by `call_control_id` (line 40).  Both
admission points compare `len(webrtc_handler._pcs_map) + len(active_calls)`
against `config.max_concurrent_calls` before inserting (lines 274-282 for
the inbound webhook, 390-392 for `_initiate_call`).  The WebRTC peer count
is exogenous here and rides on each event; Telnyx API outcomes
(answer/create success) are booleans on the event.  The stored per-call
info (uuid-derived `call_id`, numbers, timestamps, status) never influences
admission and is reduced to the direction string. -/

/-- The `active_calls` registry: association list keyed by
`call_control_id`, insertion (`active_calls[k] = v`) replacing an existing
key or appending. -/
def dictInsert (m : List (String × String)) (k v : String) :
    List (String × String) :=
  if m.any (fun p => p.1 == k) then
    m.map (fun p => if p.1 == k then (k, v) else p)
  else m ++ [(k, v)]

/-- `active_calls.pop(k)` (line 321). -/
def dictPop (m : List (String × String)) (k : String) :
    List (String × String) :=
  m.filter (fun p => !(p.1 == k))

inductive ServerEvent
  /-- `call.initiated` webhook with `direction == "incoming"` (lines
  265-300): `webrtc` peers currently connected, `answerOk` whether
  `call.answer()` succeeded. -/
  | inboundInitiated (call_control_id : String) (webrtc : Nat) (answerOk : Bool)
  /-- `_initiate_call` (lines 374-431): `prechecksOk` covers the API-key /
  destination-number checks that run before the admission check, `createOk`
  whether `telnyx.Call.create` succeeded. -/
  | outboundInitiate (call_control_id : String) (webrtc : Nat)
      (prechecksOk createOk : Bool)
  /-- `call.hangup` webhook (lines 315-326). -/
  | hangup (call_control_id : String)
  /-- Any other webhook event (`call.answered`, `streaming.started`, …):
  no registry effect. -/
  | other
  deriving DecidableEq, Repr

/-- Effect of one server event on `active_calls`, with
`max_concurrent_calls` fixed. -/
def serverStep (max_concurrent_calls : Nat) (m : List (String × String)) :
    ServerEvent → List (String × String)
  | ServerEvent.inboundInitiated ccid webrtc answerOk =>
      if max_concurrent_calls ≤ webrtc + m.length then m
      else if answerOk then dictInsert m ccid "inbound"
      else m
  | ServerEvent.outboundInitiate ccid webrtc prechecksOk createOk =>
      if !prechecksOk then m
      else if max_concurrent_calls ≤ webrtc + m.length then m
      else if createOk then dictInsert m ccid "outbound"
      else m
  | ServerEvent.hangup ccid => dictPop m ccid
  | ServerEvent.other => m

def serverRun (max_concurrent_calls : Nat) (events : List ServerEvent) :
    List (String × String) :=
  events.foldl (serverStep max_concurrent_calls) []

theorem dictInsert_length (m : List (String × String)) (k v : String) :
    (dictInsert m k v).length ≤ m.length + 1 := by
  unfold dictInsert
  by_cases h : m.any (fun p => p.1 == k) = true
  · rw [if_pos h, List.length_map]
    omega
  · rw [if_neg h, List.length_append]
    simp

theorem serverStep_length {max : Nat} {m : List (String × String)}
    (hm : m.length ≤ max) (e : ServerEvent) :
    (serverStep max m e).length ≤ max := by
  cases e with
  | inboundInitiated ccid webrtc answerOk =>
      simp only [serverStep]
      by_cases hcap : max ≤ webrtc + m.length
      · rw [if_pos hcap]; exact hm
      · rw [if_neg hcap]
        cases answerOk with
        | false => simpa using hm
        | true =>
            simp only [if_true]
            have := dictInsert_length m ccid "inbound"
            omega
  | outboundInitiate ccid webrtc prechecksOk createOk =>
      simp only [serverStep]
      cases prechecksOk with
      | false => simpa using hm
      | true =>
          simp only [Bool.not_true, Bool.false_eq_true, if_false]
          by_cases hcap : max ≤ webrtc + m.length
          · rw [if_pos hcap]; exact hm
          · rw [if_neg hcap]
            cases createOk with
            | false => simpa using hm
            | true =>
                simp only [if_true]
                have := dictInsert_length m ccid "outbound"
                omega
  | hangup ccid =>
      simp only [serverStep, dictPop]
      exact le_trans (List.length_filter_le _ m) hm
  | other => exact hm

/-- **C4.**  When the active-call count (WebRTC peers plus PSTN registry)
has reached `max_concurrent_calls`, an inbound `call.initiated` webhook and
an outbound `_initiate_call` both reject without touching the registry; and
along any event sequence the registry size never exceeds
`max_concurrent_calls`. -/
theorem claim_C4 :
    (∀ (max : Nat) (m : List (String × String)) (ccid : String)
        (webrtc : Nat) (answerOk : Bool),
      max ≤ webrtc + m.length →
      serverStep max m (ServerEvent.inboundInitiated ccid webrtc answerOk) = m) ∧
    (∀ (max : Nat) (m : List (String × String)) (ccid : String)
        (webrtc : Nat) (createOk : Bool),
      max ≤ webrtc + m.length →
      serverStep max m
        (ServerEvent.outboundInitiate ccid webrtc true createOk) = m) ∧
    (∀ (max : Nat) (events : List ServerEvent),
      (serverRun max events).length ≤ max) := by
  refine ⟨?_, ?_, ?_⟩
  · intro max m ccid webrtc answerOk hcap
    simp only [serverStep]
    rw [if_pos hcap]
  · intro max m ccid webrtc createOk hcap
    simp only [serverStep, Bool.not_true, Bool.false_eq_true, if_false]
    rw [if_pos hcap]
  · intro max events
    unfold serverRun
    suffices h : ∀ m : List (String × String), m.length ≤ max →
        (events.foldl (serverStep max) m).length ≤ max from
      h [] (by simp)
    induction events with
    | nil => exact fun m hm => hm
    | cons e es ih =>
        intro m hm
        rw [List.foldl_cons]
        exact ih _ (serverStep_length hm e)

/-- **C4 witness**: with `max_concurrent_calls = 1` and one live call, a
second inbound admit and an outbound admit are both rejected leaving the
registry unchanged; a three-event run stays within the bound. -/
theorem claim_C4_witness :
    serverStep 1 [("cc1", "inbound")]
        (ServerEvent.inboundInitiated "cc2" 0 true) = [("cc1", "inbound")] ∧
    serverStep 1 [("cc1", "inbound")]
        (ServerEvent.outboundInitiate "cc3" 0 true true) = [("cc1", "inbound")] ∧
    (serverRun 1 [ServerEvent.inboundInitiated "cc1" 0 true,
        ServerEvent.inboundInitiated "cc2" 0 true,
        ServerEvent.outboundInitiate "cc3" 0 true true]).length ≤ 1 := by
  refine ⟨?_, ?_, ?_⟩
  · exact claim_C4.1 1 [("cc1", "inbound")] "cc2" 0 true (by decide)
  · exact claim_C4.2.1 1 [("cc1", "inbound")] "cc3" 0 true (by decide)
  · exact claim_C4.2.2 1 [ServerEvent.inboundInitiated "cc1" 0 true,
      ServerEvent.inboundInitiated "cc2" 0 true,
      ServerEvent.outboundInitiate "cc3" 0 true true]

end VoiceAgent
